import Mathlib

/-!
A verification development for the `WorktTime` work-session tracker
(`worktime.py`).  The program records `START`/`END` events with RFC 3339
timestamps in a YAML file and reports session durations.

The development has three layers, each a shallow embedding of part of the
source:

* **Timestamp codec** (`Instant`, `encode`, `decode`): models
  `rec.timestamp.format(fmt=arrow.FORMAT_RFC3339)` and
  `arrow.get(s, arrow.FORMAT_RFC3339)` where
  `arrow.FORMAT_RFC3339 = "YYYY-MM-DD HH:mm:ssZZ"` — four-digit year,
  two-digit month/day/hour/minute/second, and a `±HH:MM` offset.  The
  format has no sub-second token, so `encode` drops the microsecond field.
  `decode` accepts exactly the image of `encode` (the 25-character fixed
  layout); arrow's parser is slightly more liberal on offsets, but the
  difference is outside anything the program ever writes.

* **Raw record store** (`RawRecord`, `FileState`, `read_records`): models
  `read_records`, including the YAML layer (`None` for an empty file),
  the `RecordType[dt["type"]]` enum lookup (a Python `KeyError` on an
  unknown name — evaluated before the timestamp, since Python evaluates
  constructor arguments left to right) and the `arrow.get` parse.

* **Ledger logic** (`WorkRecord`, `insert_record`, `status`, `summary`):
  models the store gate and the aggregator on parsed records.  Timestamps
  are abstracted to an absolute instant `Int` (microseconds on arrow's
  internal timeline): `insert_record` inspects only the `type` field, and
  `sorted`, `-` and comparison on arrow objects are exactly order and
  subtraction on the absolute timeline, so these definitions depend on
  timestamps only through that order and difference.  Python's `sorted`
  is a stable sort; `List.insertionSort` is also stable, and any two
  stable sorts by the same key agree on every input.  Commands thread the
  file state explicitly and return it, so that a failure path (a raised
  exception) provably leaves the file as it was: `write_records` is the
  only way the state component changes.
-/

namespace Worktime

/-- Python exceptions (and the spec's error taxonomy) that the program can
raise.  `valueError` is the `ValueError` raised by `insert_record` (the
spec's `SequenceError`); `keyError` is the `KeyError` from
`RecordType[dt["type"]]`; `parserError` is arrow's `ParserError`;
`fileNotFoundError` comes from `open` on an absent path; `indexError`
from `recs[-1]` on an empty list; `typeError` from `reduce` over an empty
iterable.  `parseError` is modelled from the spec: the typed `ParseError`
the spec prescribes for unrecognized kinds — the source defines no such
type, and we include it only so that statements can compare the error the
code actually raises against it. -/
inductive PyError where
  | valueError
  | keyError
  | parserError
  | fileNotFoundError
  | indexError
  | typeError
  | parseError
deriving DecidableEq, Repr

/-! ## Timestamp codec -/

/-- An `arrow.arrow.Arrow` instant: wall-clock fields, a microsecond
field, and a fixed UTC offset in minutes. -/
structure Instant where
  year : Nat
  month : Nat
  day : Nat
  hour : Nat
  minute : Nat
  second : Nat
  microsecond : Nat
  offsetMinutes : Int
deriving DecidableEq, Repr

/-- Two decimal digits, zero padded (arrow's `MM`, `DD`, `HH`, `mm`, `ss`
tokens). -/
def pad2 (n : Nat) : List Char :=
  [Nat.digitChar (n / 10), Nat.digitChar (n % 10)]

/-- Four decimal digits, zero padded (arrow's `YYYY` token). -/
def pad4 (n : Nat) : List Char :=
  [Nat.digitChar (n / 1000), Nat.digitChar (n / 100 % 10),
   Nat.digitChar (n / 10 % 10), Nat.digitChar (n % 10)]

/-- `timestamp.format(fmt=arrow.FORMAT_RFC3339)`: renders
`YYYY-MM-DD HH:mm:ssZZ`, where `ZZ` is the offset as `±HH:MM`.  There is
no sub-second token, so `microsecond` does not appear in the output. -/
def encode (x : Instant) : String :=
  let mag := x.offsetMinutes.natAbs
  let sign : Char := if x.offsetMinutes < 0 then '-' else '+'
  String.mk (pad4 x.year ++ '-' :: pad2 x.month ++ '-' :: pad2 x.day ++
    ' ' :: pad2 x.hour ++ ':' :: pad2 x.minute ++ ':' :: pad2 x.second ++
    sign :: pad2 (mag / 60) ++ ':' :: pad2 (mag % 60))

/-- Value of one ASCII digit, `none` on any other character. -/
def digitVal? (c : Char) : Option Nat :=
  if c.isDigit then some (c.toNat - 48) else none

/-- Value of a two-digit group. -/
def val2 (a b : Char) : Option Nat :=
  match digitVal? a, digitVal? b with
  | some x, some y => some (10 * x + y)
  | _, _ => none

/-- Value of a four-digit group. -/
def val4 (a b c d : Char) : Option Nat :=
  match digitVal? a, digitVal? b, digitVal? c, digitVal? d with
  | some x, some y, some z, some w => some (1000 * x + 100 * y + 10 * z + w)
  | _, _, _, _ => none

/-- Sign of the rendered UTC offset. -/
def signOf : Char → Option Int
  | '+' => some 1
  | '-' => some (-1)
  | _ => none

/-- `arrow.get(s, arrow.FORMAT_RFC3339)` on the character list: match the
25-character layout `YYYY-MM-DD HH:mm:ss±HH:MM`.  The parsed instant has
`microsecond = 0` — the format has no sub-second token. -/
def decodeChars : List Char → Option Instant
  | [y1, y2, y3, y4, c1, m1, m2, c2, d1, d2, c3,
     h1, h2, c4, i1, i2, c5, s1, s2, sg, o1, o2, c6, o3, o4] =>
    if c1 = '-' ∧ c2 = '-' ∧ c3 = ' ' ∧ c4 = ':' ∧ c5 = ':' ∧ c6 = ':' then
      match val4 y1 y2 y3 y4, val2 m1 m2, val2 d1 d2, val2 h1 h2,
            val2 i1 i2, val2 s1 s2, signOf sg, val2 o1 o2, val2 o3 o4 with
      | some y, some mo, some d, some h, some mi, some se, some sgn,
        some oh, some om =>
          some ⟨y, mo, d, h, mi, se, 0, sgn * (60 * oh + om)⟩
      | _, _, _, _, _, _, _, _, _ => none
    else none
  | _ => none

/-- `arrow.get(s, arrow.FORMAT_RFC3339)`. -/
def decode (s : String) : Option Instant :=
  decodeChars s.data

theorem digitVal?_digitChar : ∀ d < 10, digitVal? (Nat.digitChar d) = some d := by
  decide

theorem val2_pad2 (n : Nat) (h : n < 100) :
    val2 (Nat.digitChar (n / 10)) (Nat.digitChar (n % 10)) = some n := by
  have h1 : n / 10 < 10 := by omega
  have h2 : n % 10 < 10 := by omega
  rw [val2, digitVal?_digitChar _ h1, digitVal?_digitChar _ h2]
  exact congrArg some (by omega)

theorem val4_pad4 (n : Nat) (h : n < 10000) :
    val4 (Nat.digitChar (n / 1000)) (Nat.digitChar (n / 100 % 10))
      (Nat.digitChar (n / 10 % 10)) (Nat.digitChar (n % 10)) = some n := by
  have h1 : n / 1000 < 10 := by omega
  have h2 : n / 100 % 10 < 10 := by omega
  have h3 : n / 10 % 10 < 10 := by omega
  have h4 : n % 10 < 10 := by omega
  rw [val4, digitVal?_digitChar _ h1, digitVal?_digitChar _ h2,
    digitVal?_digitChar _ h3, digitVal?_digitChar _ h4]
  exact congrArg some (by omega)

/-- Claim C5 (amended): decoding an encoded timestamp restores every
field of the instant — including a non-UTC offset, which is preserved
with its sign — except the sub-second field, which is forced to zero
because `FORMAT_RFC3339 = "YYYY-MM-DD HH:mm:ssZZ"` has no sub-second
token.  In particular `decode (encode x) = some x` exactly for instants
whose sub-second field is zero. -/
theorem decode_encode_truncates (x : Instant)
    (hy : x.year < 10000) (hmo : x.month < 100) (hd : x.day < 100)
    (hh : x.hour < 100) (hmi : x.minute < 100) (hse : x.second < 100)
    (hoff : x.offsetMinutes.natAbs < 6000) :
    decode (encode x) = some { x with microsecond := 0 } := by
  have hstep : decode (encode x) = decodeChars
      (pad4 x.year ++ '-' :: pad2 x.month ++ '-' :: pad2 x.day ++
       ' ' :: pad2 x.hour ++ ':' :: pad2 x.minute ++ ':' :: pad2 x.second ++
       (if x.offsetMinutes < 0 then '-' else '+') ::
         pad2 (x.offsetMinutes.natAbs / 60) ++
       ':' :: pad2 (x.offsetMinutes.natAbs % 60)) := rfl
  have hoh : x.offsetMinutes.natAbs / 60 < 100 := by omega
  have hom : x.offsetMinutes.natAbs % 60 < 100 := by omega
  rw [hstep]
  simp only [pad4, pad2, List.cons_append, List.nil_append]
  rw [decodeChars]
  rw [if_pos ⟨rfl, rfl, rfl, rfl, rfl, rfl⟩]
  rw [val4_pad4 x.year hy, val2_pad2 x.month hmo, val2_pad2 x.day hd,
    val2_pad2 x.hour hh, val2_pad2 x.minute hmi, val2_pad2 x.second hse,
    val2_pad2 _ hoh, val2_pad2 _ hom]
  by_cases hneg : x.offsetMinutes < 0
  · rw [if_pos hneg, show signOf '-' = some (-1) from rfl]
    have hcoe : (-1 : Int) * (60 * ((x.offsetMinutes.natAbs / 60 : Nat) : Int) +
        ((x.offsetMinutes.natAbs % 60 : Nat) : Int)) = x.offsetMinutes := by omega
    exact congrArg (fun z => some (Instant.mk x.year x.month x.day x.hour
      x.minute x.second 0 z)) hcoe
  · rw [if_neg hneg, show signOf '+' = some 1 from rfl]
    have hcoe : (1 : Int) * (60 * ((x.offsetMinutes.natAbs / 60 : Nat) : Int) +
        ((x.offsetMinutes.natAbs % 60 : Nat) : Int)) = x.offsetMinutes := by omega
    exact congrArg (fun z => some (Instant.mk x.year x.month x.day x.hour
      x.minute x.second 0 z)) hcoe

/-- Claim C5, counterexample: an instant with a non-zero sub-second field
does not survive the round trip — the rendered `FORMAT_RFC3339` text has
no sub-second token, so decoding returns the instant truncated to whole
seconds rather than the original. -/
theorem decode_encode_subsecond_cex :
    decode (encode ⟨2024, 3, 1, 14, 5, 7, 500000, 60⟩) ≠
      some ⟨2024, 3, 1, 14, 5, 7, 500000, 60⟩ ∧
    decode (encode ⟨2024, 3, 1, 14, 5, 7, 500000, 60⟩) =
      some ⟨2024, 3, 1, 14, 5, 7, 0, 60⟩ := by
  exact ⟨by decide, by decide⟩

/-- Witness for C5's amended theorem at a concrete instant with a
non-UTC offset and a zero sub-second field. -/
theorem decode_encode_truncates_witness :
    (⟨2017, 11, 30, 9, 41, 23, 0, -90⟩ : Instant).microsecond = 0 ∧
    decode (encode ⟨2017, 11, 30, 9, 41, 23, 0, -90⟩) =
      some ⟨2017, 11, 30, 9, 41, 23, 0, -90⟩ :=
  ⟨rfl, decode_encode_truncates ⟨2017, 11, 30, 9, 41, 23, 0, -90⟩
    (by decide) (by decide) (by decide) (by decide) (by decide) (by decide)
    (by decide)⟩

/-! ## Raw record store: `read_records` over the backing file -/

/-- One YAML mapping as `yaml.load(..., Loader=yaml.BaseLoader)` returns
it: both fields are plain strings (`BaseLoader` does no type
resolution). -/
structure RawRecord where
  type : String
  timestamp : String
deriving DecidableEq, Repr

/-- `class RecordType(Enum)` with members `START` and `END`. -/
inductive RecordType where
  | START
  | END
deriving DecidableEq, Repr

/-- A parsed record: `WorkRecord(RecordType[...], arrow.get(...))`. -/
structure WorkRecordS where
  type : RecordType
  timestamp : Instant
deriving DecidableEq, Repr

/-- The backing file: `absent` (the path does not exist — `open` raises
`FileNotFoundError`), or present with the YAML document it holds.
`present none` is an empty (or all-whitespace) file, which
`yaml.load` reads as `None`; `present (some raws)` is a file holding a
list of mappings. -/
inductive FileState where
  | absent
  | present (doc : Option (List RawRecord))
deriving DecidableEq, Repr

/-- `RecordType[dt["type"]]` — Python `Enum` lookup by member name.
Anything other than `"START"` or `"END"` raises `KeyError`. -/
def typeOfName (s : String) : Option RecordType :=
  if s = "START" then some RecordType.START
  else if s = "END" then some RecordType.END
  else none

/-- `WorkRecord(RecordType[dt["type"]], arrow.get(dt["timestamp"], arrow.FORMAT_RFC3339))`.
Python evaluates the arguments left to right, so an unknown `type` name
raises `KeyError` before the timestamp is ever parsed; a bad timestamp
raises arrow's `ParserError`. -/
def parseRecord (r : RawRecord) : Except PyError WorkRecordS :=
  match typeOfName r.type with
  | none => .error .keyError
  | some t =>
    match decode r.timestamp with
    | none => .error .parserError
    | some ts => .ok ⟨t, ts⟩

/-- `list(map(lambda dt: WorkRecord(...), record_dicts))` — eager map,
left to right, propagating the first exception. -/
def read_list : List RawRecord → Except PyError (List WorkRecordS)
  | [] => .ok []
  | r :: rest =>
    match parseRecord r with
    | .error e => .error e
    | .ok w =>
      match read_list rest with
      | .error e => .error e
      | .ok ws => .ok (w :: ws)

/-- `read_records(path)`: `open` raises `FileNotFoundError` on an absent
path; an empty file loads as `None` and returns `[]` (the
`if not record_dicts` branch); otherwise each mapping is parsed. -/
def read_records (fs : FileState) : Except PyError (List WorkRecordS) :=
  match fs with
  | .absent => .error .fileNotFoundError
  | .present none => .ok []
  | .present (some raws) => read_list raws

/-- The `cli` group callback, lines 95–97: `if not path.exists():
path.touch()` — an absent backing file is created empty before any
subcommand runs. -/
def touchIfAbsent : FileState → FileState
  | .absent => .present none
  | fs => fs

theorem typeOfName_eq_none {s : String} (h1 : s ≠ "START") (h2 : s ≠ "END") :
    typeOfName s = none := by
  rw [typeOfName, if_neg h1, if_neg h2]

/-- Claim C6 (amended): `read_records` does validate each stored `type`
field against the closed enumeration — an unrecognized name makes the
`RecordType[dt["type"]]` lookup fail — but the failure is Python's
generic uncaught `KeyError`, not a typed `ParseError` (the source
defines no such type).  Stated for any file whose timestamps all parse,
so that the kind check is what fails first. -/
theorem read_records_unknown_kind_key_error (raws : List RawRecord)
    (hts : ∀ r ∈ raws, (decode r.timestamp).isSome)
    (hbad : ∃ r ∈ raws, r.type ≠ "START" ∧ r.type ≠ "END") :
    read_records (.present (some raws)) = .error .keyError := by
  induction raws with
  | nil =>
    obtain ⟨r, hr, _⟩ := hbad
    exact absurd hr (List.not_mem_nil r)
  | cons r rest ih =>
    show read_list (r :: rest) = .error .keyError
    by_cases hr : r.type ≠ "START" ∧ r.type ≠ "END"
    · simp only [read_list, parseRecord, typeOfName_eq_none hr.1 hr.2]
    · obtain ⟨t, ht⟩ : ∃ t, typeOfName r.type = some t := by
        rw [typeOfName]
        by_cases h1 : r.type = "START"
        · rw [if_pos h1]; exact ⟨_, rfl⟩
        · by_cases h2 : r.type = "END"
          · rw [if_neg h1, if_pos h2]; exact ⟨_, rfl⟩
          · exact absurd ⟨h1, h2⟩ hr
      obtain ⟨ts, hdec⟩ := Option.isSome_iff_exists.mp
        (hts r (List.mem_cons_self r rest))
      have hrest : read_list rest = .error .keyError := by
        apply ih
        · exact fun a ha => hts a (List.mem_cons_of_mem r ha)
        · obtain ⟨b, hb, hbbad⟩ := hbad
          rcases List.mem_cons.mp hb with heq | hbm
          · exact absurd (heq ▸ hbbad) hr
          · exact ⟨b, hbm, hbbad⟩
      simp only [read_list, parseRecord, ht, hdec, hrest]

/-- Claim C6, counterexample: a stored record whose `type` field is
`"FOO"` (with a well-formed timestamp) makes `read_records` fail with
the generic `KeyError` from the enum lookup, not with the typed
`ParseError` the claim prescribes. -/
theorem read_records_unknown_kind_cex :
    read_records (.present (some [⟨"FOO", "2024-03-01 14:05:07+01:00"⟩])) =
      .error .keyError ∧
    read_records (.present (some [⟨"FOO", "2024-03-01 14:05:07+01:00"⟩])) ≠
      .error .parseError := by
  refine ⟨rfl, ?_⟩
  intro hcontra
  rw [show read_records (.present (some [⟨"FOO", "2024-03-01 14:05:07+01:00"⟩])) =
      .error .keyError from rfl] at hcontra
  injection hcontra with h2
  exact PyError.noConfusion h2

/-- Witness for C6's amended theorem at a concrete malformed file. -/
theorem read_records_unknown_kind_key_error_witness :
    (∀ r ∈ [(⟨"FOO", "2024-03-01 14:05:07+01:00"⟩ : RawRecord)],
      (decode r.timestamp).isSome) ∧
    read_records (.present (some [⟨"FOO", "2024-03-01 14:05:07+01:00"⟩])) =
      .error .keyError := by
  have h1 : ∀ r ∈ [(⟨"FOO", "2024-03-01 14:05:07+01:00"⟩ : RawRecord)],
      (decode r.timestamp).isSome := by decide
  have h2 : ∃ r ∈ [(⟨"FOO", "2024-03-01 14:05:07+01:00"⟩ : RawRecord)],
      r.type ≠ "START" ∧ r.type ≠ "END" := by decide
  exact ⟨h1, read_records_unknown_kind_key_error _ h1 h2⟩

/-- Claim C8 (amended): `read_records` on an empty backing file returns
the empty sequence; on an absent file `read_records` itself fails (the
`open` call raises `FileNotFoundError`), but every command first runs the
`cli` callback, which touches an absent file into an empty one, after
which reading yields the empty sequence. -/
theorem read_records_empty_ok :
    read_records (.present none) = .ok [] ∧
    read_records (touchIfAbsent .absent) = .ok [] :=
  ⟨rfl, rfl⟩

/-- Claim C8, counterexample: `read_records` applied directly to an
absent backing file does not return the empty sequence — `open` raises
`FileNotFoundError`. -/
theorem read_records_absent_cex :
    read_records .absent = .error .fileNotFoundError ∧
    read_records .absent ≠ .ok [] := by
  refine ⟨rfl, ?_⟩
  intro h
  exact Except.noConfusion h

/-! ## Ledger logic: `insert_record`, `status`, `summary`

Timestamps here are the absolute instant on arrow's internal timeline
(an `Int`, microseconds): `insert_record` looks only at `type`, and
`sorted(..., key=lambda x: x.timestamp)`, `arrow - arrow` and arrow
comparison are exactly order and subtraction of absolute instants. -/

/-- A parsed `WorkRecord` as the ledger logic consumes it. -/
structure WorkRecord where
  type : RecordType
  timestamp : Int
deriving DecidableEq, Repr

/-- `records and records[-1].type == rec.type` (line 75): false on an
empty list, otherwise compares the last record's kind. -/
def lastTypeEquals (records : List WorkRecord) (t : RecordType) : Bool :=
  match records.getLast? with
  | some last => last.type == t
  | none => false

/-- `insert_record(path, rec)`, lines 73–78: read the current records,
raise `ValueError` (the spec's `SequenceError`) when the sequence is
non-empty and ends in the same kind, else append and write the whole
sequence back.  The second component is the backing file's content after
the call; the raise happens before `write_records`, so on that path the
content is returned untouched. -/
def insert_record (records : List WorkRecord) (rec : WorkRecord) :
    Except PyError Unit × List WorkRecord :=
  if lastTypeEquals records rec.type then (.error .valueError, records)
  else (.ok (), records ++ [rec])

/-- Comparison key of `sorted(recs, key=lambda x: x.timestamp)`. -/
def recLe (a b : WorkRecord) : Prop := a.timestamp ≤ b.timestamp

instance : DecidableRel recLe := fun a b => Int.decLe a.timestamp b.timestamp

/-- `sorted(recs, key=lambda x: x.timestamp)` (line 132).  Python's sort
is stable; insertion sort is also stable, and any two stable sorts by
the same key agree on every input. -/
def sortRecs (recs : List WorkRecord) : List WorkRecord :=
  recs.insertionSort recLe

/-- Python slice `l[0::2]` (and `l[1::2]` via `everyOther l.tail`). -/
def everyOther {α : Type} : List α → List α
  | [] => []
  | [a] => [a]
  | a :: _ :: rest => a :: everyOther rest

/-- Lines 132–139 of `summary`: sort chronologically; `recs[-1]` raises
`IndexError` on an empty ledger; if the last event is a `Start`, append a
synthetic `End` stamped "now" (in memory only); then
`zip(recs[0::2], recs[1::2])` pairs the list two at a time, the second
element of each pair becoming that session's end regardless of kind. -/
def pair_sessions (recs0 : List WorkRecord) (now : Int) :
    Except PyError (List (WorkRecord × WorkRecord)) :=
  let recs := sortRecs recs0
  match recs.getLast? with
  | none => .error .indexError
  | some last =>
    let recs2 := if last.type = RecordType.START
      then recs ++ [⟨RecordType.END, now⟩] else recs
    .ok (List.zip (everyOther recs2) (everyOther recs2.tail))

/-- Line 144: `reduce(lambda x, y: x + y, durations)` — a fold without
an initial element, which raises `TypeError` on an empty list. -/
def total_duration (durations : List Int) : Except PyError Int :=
  match durations with
  | [] => .error .typeError
  | d :: rest => .ok (rest.foldl (· + ·) d)

/-- The `summary` command, lines 129–150: pair the sessions, take each
session's duration `end - start`, and reduce them to a total.  The
second component is the backing file's content after the command — the
body never calls `write_records`. -/
def summary (recs : List WorkRecord) (now : Int) :
    Except PyError (List Int × Int) × List WorkRecord :=
  match pair_sessions recs now with
  | .error e => (.error e, recs)
  | .ok sessions =>
    let durations := sessions.map fun s => s.2.timestamp - s.1.timestamp
    match total_duration durations with
    | .error e => (.error e, recs)
    | .ok tot => (.ok (durations, tot), recs)

/-- The `status` command, lines 115–127: report the last record's kind
and (humanized) timestamp, or nothing on an empty ledger.  The body
never calls `write_records`. -/
def status (recs : List WorkRecord) :
    Except PyError (Option (RecordType × Int)) × List WorkRecord :=
  match recs.getLast? with
  | none => (.ok none, recs)
  | some last => (.ok (some (last.type, last.timestamp)), recs)

/-- The spec's alternation invariant: no two consecutive stored events
share a kind. -/
def Alternating (recs : List WorkRecord) : Prop :=
  List.Chain' (fun a b => a.type ≠ b.type) recs

/-- Ledgers reachable from the empty ledger by successful
`insert_record` calls. -/
inductive Reachable : List WorkRecord → Prop where
  | nil : Reachable []
  | step {fs fs' : List WorkRecord} {rec : WorkRecord} :
      Reachable fs → insert_record fs rec = (.ok (), fs') → Reachable fs'

/-- Claim C1: `insert_record` fails with `ValueError` (the spec's
`SequenceError`) exactly when the stored sequence is non-empty and ends
in the new event's kind; in every other case it appends the event and
saves the extended sequence. -/
theorem insert_record_gate (records : List WorkRecord) (rec : WorkRecord) :
    ((∃ last, records.getLast? = some last ∧ last.type = rec.type) →
      insert_record records rec = (.error .valueError, records)) ∧
    ((∀ last, records.getLast? = some last → last.type ≠ rec.type) →
      insert_record records rec = (.ok (), records ++ [rec])) := by
  constructor
  · rintro ⟨last, hl, ht⟩
    simp [insert_record, lastTypeEquals, hl, ht]
  · intro h
    rcases hlast : records.getLast? with _ | last
    · simp [insert_record, lastTypeEquals, hlast]
    · simp [insert_record, lastTypeEquals, hlast, h last hlast]

/-- Witness for C1: on an empty ledger `append(Start)` succeeds, and an
immediately following `append(Start)` fails with the sequence error. -/
theorem insert_record_gate_witness :
    insert_record [] ⟨RecordType.START, 0⟩ = (.ok (), [⟨RecordType.START, 0⟩]) ∧
    insert_record [⟨RecordType.START, 0⟩] ⟨RecordType.START, 1⟩ =
      (.error .valueError, [⟨RecordType.START, 0⟩]) :=
  ⟨(insert_record_gate [] ⟨RecordType.START, 0⟩).2 (fun _ hl => nomatch hl),
   (insert_record_gate [⟨RecordType.START, 0⟩] ⟨RecordType.START, 1⟩).1
     ⟨⟨RecordType.START, 0⟩, rfl, rfl⟩⟩

/-- Claim C4 (amended): the `end` operation on an `Empty` ledger does
not fail — the gate compares kinds only when a last event exists, so
inserting any event (an `End` included) into an empty ledger succeeds
and makes it the first event.  A ledger's first event therefore need not
be a `Start`. -/
theorem insert_into_empty_succeeds (rec : WorkRecord) :
    insert_record [] rec = (.ok (), [rec]) := rfl

/-- Claim C4, counterexample: appending an `End` event to an empty
ledger succeeds instead of failing with the sequence error. -/
theorem end_on_empty_succeeds_cex :
    insert_record [] ⟨RecordType.END, 0⟩ = (.ok (), [⟨RecordType.END, 0⟩]) ∧
    (insert_record [] ⟨RecordType.END, 0⟩).1 ≠ .error .valueError := by
  refine ⟨rfl, ?_⟩
  intro h
  exact Except.noConfusion h

/-- Claim C10: when `insert_record` rejects an event, the `raise`
happens before `write_records`, so the backing file's content is exactly
what it was before the call. -/
theorem insert_record_atomic_on_failure (records : List WorkRecord)
    (rec : WorkRecord) (e : PyError)
    (h : (insert_record records rec).1 = .error e) :
    (insert_record records rec).2 = records := by
  cases hcond : lastTypeEquals records rec.type with
  | true => simp [insert_record, hcond]
  | false => simp [insert_record, hcond] at h

/-- Witness for C10 at a concrete rejected append. -/
theorem insert_record_atomic_witness :
    (insert_record [⟨RecordType.START, 0⟩] ⟨RecordType.START, 1⟩).1 =
      .error .valueError ∧
    (insert_record [⟨RecordType.START, 0⟩] ⟨RecordType.START, 1⟩).2 =
      [⟨RecordType.START, 0⟩] :=
  ⟨rfl, insert_record_atomic_on_failure [⟨RecordType.START, 0⟩]
    ⟨RecordType.START, 1⟩ .valueError rfl⟩

/-- Claim C3 (the code contradicts it): on an empty ledger the inline
pairing crashes at `recs[-1]` with `IndexError` before any session is
produced, the `reduce` over an empty duration list raises `TypeError`
rather than returning a zero duration, and the `summary` command on an
empty ledger therefore fails instead of reporting no sessions and a
zero total. -/
theorem summary_empty_ledger_fails (now : Int) :
    pair_sessions [] now = .error .indexError ∧
    total_duration [] = .error .typeError ∧
    summary [] now = (.error .indexError, []) :=
  ⟨rfl, rfl, rfl⟩

/-- Claim C2: every ledger reachable from the empty ledger by successful
`insert_record` calls satisfies the alternation invariant — reading the
stored events in file order never yields two consecutive events of the
same kind. -/
theorem reachable_alternating (fs : List WorkRecord) (h : Reachable fs) :
    Alternating fs := by
  induction h with
  | nil => exact List.chain'_nil
  | @step fs fs' rec _ hins ih =>
    cases hcond : lastTypeEquals fs rec.type with
    | true => simp [insert_record, hcond] at hins
    | false =>
      simp only [insert_record, hcond, Bool.false_eq_true, if_false,
        Prod.mk.injEq, true_and] at hins
      subst hins
      rw [Alternating, List.chain'_append]
      refine ⟨ih, List.chain'_singleton rec, ?_⟩
      intro x hx y hy
      have hy' : rec = y := by
        simpa using hy
      have hx' : fs.getLast? = some x := hx
      rw [lastTypeEquals, hx'] at hcond
      rw [← hy']
      simpa using hcond

/-- Witness for C2 at a concrete two-step reachable ledger. -/
theorem reachable_alternating_witness :
    Reachable [⟨RecordType.START, 0⟩, ⟨RecordType.END, 5⟩] ∧
    Alternating [⟨RecordType.START, 0⟩, ⟨RecordType.END, 5⟩] :=
  have h : Reachable [⟨RecordType.START, 0⟩, ⟨RecordType.END, 5⟩] :=
    @Reachable.step [⟨RecordType.START, 0⟩]
      [⟨RecordType.START, 0⟩, ⟨RecordType.END, 5⟩] ⟨RecordType.END, 5⟩
      (@Reachable.step [] [⟨RecordType.START, 0⟩] ⟨RecordType.START, 0⟩
        Reachable.nil rfl) rfl
  ⟨h, reachable_alternating _ h⟩

/-- Claim C7: on the chronologically sorted events `Start@T0`, `End@T1`,
`Start@T2`, the pairing yields exactly the closed session `(T0, T1)` and
the synthetic open session `(T2, now)` (its `End` exists only in
memory), and the total over the closed session alone is `T1 - T0`. -/
theorem summary_three_events (T0 T1 T2 now : Int)
    (h01 : T0 < T1) (h12 : T1 < T2) :
    pair_sessions [⟨RecordType.START, T0⟩, ⟨RecordType.END, T1⟩,
        ⟨RecordType.START, T2⟩] now =
      .ok [(⟨RecordType.START, T0⟩, ⟨RecordType.END, T1⟩),
           (⟨RecordType.START, T2⟩, ⟨RecordType.END, now⟩)] ∧
    total_duration (([(⟨RecordType.START, T0⟩, ⟨RecordType.END, T1⟩)] :
        List (WorkRecord × WorkRecord)).map
        fun s => s.2.timestamp - s.1.timestamp) = .ok (T1 - T0) := by
  have hsorted : sortRecs [⟨RecordType.START, T0⟩, ⟨RecordType.END, T1⟩,
      ⟨RecordType.START, T2⟩] =
      [⟨RecordType.START, T0⟩, ⟨RecordType.END, T1⟩,
       ⟨RecordType.START, T2⟩] := by
    apply List.Sorted.insertionSort_eq
    show List.Pairwise recLe _
    refine List.Pairwise.cons ?_ (List.Pairwise.cons ?_
      (List.Pairwise.cons (fun b hb => absurd hb (List.not_mem_nil b))
        List.Pairwise.nil))
    · rintro b hb
      rcases List.mem_cons.mp hb with rfl | hb2
      · exact le_of_lt h01
      · rcases List.mem_singleton.mp hb2 with rfl
        exact le_of_lt (h01.trans h12)
    · rintro b hb
      rcases List.mem_singleton.mp hb with rfl
      exact le_of_lt h12
  constructor
  · unfold pair_sessions
    rw [hsorted]
    rfl
  · rfl

/-- Witness for C7 at concrete timestamps `0 < 5 < 9`, `now = 12`. -/
theorem summary_three_events_witness :
    (0 : Int) < 5 ∧
    (pair_sessions [⟨RecordType.START, 0⟩, ⟨RecordType.END, 5⟩,
        ⟨RecordType.START, 9⟩] 12 =
      .ok [(⟨RecordType.START, 0⟩, ⟨RecordType.END, 5⟩),
           (⟨RecordType.START, 9⟩, ⟨RecordType.END, 12⟩)] ∧
    total_duration (([(⟨RecordType.START, 0⟩, ⟨RecordType.END, 5⟩)] :
        List (WorkRecord × WorkRecord)).map
        fun s => s.2.timestamp - s.1.timestamp) = .ok (5 - 0)) :=
  ⟨by decide, summary_three_events 0 5 9 12 (by decide) (by decide)⟩

/-- Claim C9: `status` and `summary` never mutate the ledger — neither
command's body reaches `write_records`, so the backing file's content
after either command equals its content before, whether the command
succeeds or raises; in particular the synthetic `End` that `summary`
appends for an open trailing session exists only in memory. -/
theorem status_summary_no_mutation (recs : List WorkRecord) (now : Int) :
    (status recs).2 = recs ∧ (summary recs now).2 = recs := by
  constructor
  · cases hl : recs.getLast? with
    | none => simp [status, hl]
    | some last => simp [status, hl]
  · cases hp : pair_sessions recs now with
    | error e => simp [summary, hp]
    | ok sessions =>
      cases ht : total_duration (sessions.map
          fun s => s.2.timestamp - s.1.timestamp) with
      | error e => simp [summary, hp, ht]
      | ok tot => simp [summary, hp, ht]

end Worktime
